import Mathlib

/-!
Verification of the WAN-simulation repository's core components:
the admission controller (rate limiter), the routing-and-failover
lookup, the policy steering (PBR) controller, the paced traffic
generators, and the per-flow statistics aggregation.

ns-3 `Time` is a signed fixed-point count of nanoseconds; the rate
limiter's clock is therefore modelled as an integer number of
nanoseconds, while generator schedules and flow durations, whose
claims involve exact fractional second values, are modelled as exact
rationals. Byte and packet counters are naturals, matching the
unsigned machine integers of the source.
-/

namespace WanSim

/-! ## Admission controller (rate limiter)

Embeds `RateLimiter` from `exercise1-Triangle-WAN-Topolog.cc`
(the Exercise-3 security-simulation section): fields
`m_rateLimit` (a bit rate), `m_windowSize` (seconds),
`m_bytesInWindow`, `m_windowStart`, `m_droppedPackets`,
and the method `AllowPacket`. -/

/-- Mutable state of `RateLimiter`: `m_bytesInWindow`, `m_windowStart`
(an ns-3 `Time`, i.e. a signed integer count of nanoseconds),
`m_droppedPackets`. -/
structure RateLimiterState where
  bytesInWindow : Nat
  windowStart : ℤ
  droppedPackets : Nat
  deriving Repr, DecidableEq

/-- Configuration of `RateLimiter`: `m_rateLimit` as a bit rate
(`GetBitRate()` is an unsigned integer) and `m_windowSize` as a whole
number of seconds (the source always uses `Seconds(1.0)`). -/
structure RateLimiterConfig where
  rateLimitBps : Nat
  windowSizeSec : Nat
  deriving Repr, DecidableEq

/-- `m_windowSize` as an ns-3 `Time` value: nanoseconds. -/
def windowSizeNs (cfg : RateLimiterConfig) : ℤ :=
  cfg.windowSizeSec * 1000000000

/-- `maxBytes = m_rateLimit.GetBitRate() / 8 * m_windowSize.GetSeconds()`,
with `/` the C++ integer division. -/
def maxBytes (cfg : RateLimiterConfig) : Nat :=
  cfg.rateLimitBps / 8 * cfg.windowSizeSec

/-- `RateLimiter::AllowPacket`: reset the window when
`now - m_windowStart >= m_windowSize`, then admit the packet iff
`m_bytesInWindow + size <= maxBytes`; on denial increment
`m_droppedPackets`. Returns the decision and the updated state. -/
def allowPacket (cfg : RateLimiterConfig) (st : RateLimiterState)
    (size : Nat) (now : ℤ) : Bool × RateLimiterState :=
  let st1 :=
    if now - st.windowStart ≥ windowSizeNs cfg then
      { st with bytesInWindow := 0, windowStart := now }
    else st
  if st1.bytesInWindow + size ≤ maxBytes cfg then
    (true, { st1 with bytesInWindow := st1.bytesInWindow + size })
  else
    (false, { st1 with droppedPackets := st1.droppedPackets + 1 })

/-- Feed a list of `(size, arrivalTime)` packets through the limiter in
order, collecting the allow/deny decisions. -/
def processPackets (cfg : RateLimiterConfig) (st : RateLimiterState) :
    List (Nat × ℤ) → List Bool
  | [] => []
  | (sz, t) :: rest =>
      let r := allowPacket cfg st sz t
      r.1 :: processPackets cfg r.2 rest

/-! ## Policy steering (PBR) controller

Embeds `PbrController` from `src/exercise5.cc` together with the
initial route installed in `main`. IPv4 addresses are encoded as 32-bit
naturals. -/

/-- An IPv4 dotted quad as a natural number. -/
def addr (a b c d : Nat) : Nat := ((a * 256 + b) * 256 + c) * 256 + d

/-- A static route entry as manipulated by `PbrController`:
destination network, mask, next hop, output interface. -/
structure PbrEntry where
  destNet : Nat
  mask : Nat
  nextHop : Nat
  outIf : Nat
  deriving Repr, DecidableEq

/-- The steered destination network `10.200.0.0`. -/
def pbrDestNet : Nat := addr 10 200 0 0

/-- The mask `255.255.255.0`. -/
def pbrMask : Nat := addr 255 255 255 0

/-- The primary route added by `Toggle` when `m_state` is true (and by
`main` initially): next hop `10.100.1.2`, interface 1. -/
def primaryRoute : PbrEntry := ⟨pbrDestNet, pbrMask, addr 10 100 1 2, 1⟩

/-- The secondary route added by `Toggle` when `m_state` is false:
next hop `10.100.2.2`, interface 2. -/
def secondaryRoute : PbrEntry := ⟨pbrDestNet, pbrMask, addr 10 100 2 2, 2⟩

/-- `PbrController` state: the router's static routes (insertion
ordered, `AddNetworkRouteTo` appends) and the `m_state` flag. -/
structure PbrState where
  routes : List PbrEntry
  mState : Bool
  deriving Repr, DecidableEq

/-- One firing of `PbrController::Toggle`: remove every route whose
destination network and mask match the watched destination, then add
the primary route if `m_state` else the secondary route, then flip
`m_state`. -/
def toggle (s : PbrState) : PbrState :=
  let kept := s.routes.filter fun e =>
    !(e.destNet == pbrDestNet && e.mask == pbrMask)
  if s.mState then ⟨kept ++ [primaryRoute], !s.mState⟩
  else ⟨kept ++ [secondaryRoute], !s.mState⟩

/-- The router's state before any toggle: `main` adds the primary route
(`AddNetworkRouteTo(10.200.0.0/24, 10.100.1.2, 1)`) and the controller
is constructed with `m_state(true)`. -/
def pbrInit : PbrState := ⟨[primaryRoute], true⟩

/-- State after the k-th firing of `Toggle` (k = 0: before any). -/
def afterToggles : Nat → PbrState
  | 0 => pbrInit
  | k + 1 => toggle (afterToggles k)

/-- The route entries for the watched destination. -/
def activeRoutes (s : PbrState) : List PbrEntry :=
  s.routes.filter fun e => e.destNet == pbrDestNet && e.mask == pbrMask

/-! ## Routing table and failover lookup

The routing engine itself lives in the external framework
(`ns3::Ipv4StaticRouting`); the repository code only calls
`AddNetworkRouteTo` and schedules `FailLink` (§4.1 of the spec defines
the engine's contract), so `Lookup` and the link-state filter are
modelled from the spec. -/

/-- Operational state of a link: spec §3, `Link.state ∈ {Up, Down}`. -/
inductive LinkState
  | up
  | down
  deriving Repr, DecidableEq

/-- Modelled from the spec: a `RouteEntry` (spec §3) — destination
network, mask, next-hop address, egress link reference, metric (lower
preferred). -/
structure RouteEntry where
  dest : Nat
  mask : Nat
  nextHop : Nat
  link : Nat
  metric : Nat
  deriving Repr, DecidableEq

/-- Modelled from the spec: `Lookup(dest)` (spec §4.1) — the engine is
in the external framework, not under `src/`. Scan the insertion-ordered
entries for the destination, filter out any whose link state is Down,
return the surviving entry with the lowest metric, ties broken by
insertion order (first inserted wins); `none` means unreachable. -/
def lookup (ls : Nat → LinkState) (tbl : List RouteEntry) (d : Nat) :
    Option RouteEntry :=
  (tbl.filter fun e => e.dest == d && ls e.link == LinkState.up).foldl
    (fun acc e =>
      match acc with
      | none => some e
      | some b => if e.metric < b.metric then some e else some b)
    none

/-- Modelled from the spec: link states of the triangle topology of
`exercise1-Triangle-WAN-Topolog.cc` as a function of simulated time.
Links are numbered 0 = HQ–Branch (`d01`), 1 = Branch–DC (`d12`),
2 = DC–HQ (`d20`); `main` schedules `FailLink` on `d20` at 4.0 s, so
link 2 is Down from `t ≥ 4` and every link is Up before. -/
def linkStateAt (t : ℚ) (l : Nat) : LinkState :=
  if l = 2 ∧ (4 : ℚ) ≤ t then LinkState.down else LinkState.up

/-- The destination network `10.1.2.0` (Branch–DC subnet, the address
the HQ echo client targets). -/
def dcNet : Nat := addr 10 1 2 0

/-- Scenario entry from spec §8: the metric-1 route to `dcNet` via the
direct DC–HQ link (link 2, the one that fails at 4.0 s). -/
def directRouteEntry : RouteEntry :=
  ⟨dcNet, addr 255 255 255 0, addr 10 1 3 2, 2, 1⟩

/-- Scenario entry from spec §8: the metric-2 backup route to `dcNet`
via Branch (link 0, which stays Up), next hop `10.1.1.2`. -/
def backupRouteEntry : RouteEntry :=
  ⟨dcNet, addr 255 255 255 0, addr 10 1 1 2, 0, 2⟩

/-- HQ's routing table for the scenario: primary first, backup second
(insertion order of the two `AddNetworkRouteTo` calls). -/
def hqScenarioTable : List RouteEntry := [directRouteEntry, backupRouteEntry]

/-! ## Paced traffic generators

Embeds the shared state machine of `VoipApplication`
(`src/unnamed/part_000`) and `DDoSAttacker`
(`exercise1-Triangle-WAN-Topolog.cc`). The two differ only in the
packet-count limit: the VoIP variant reschedules only while
`m_packetsSent < m_nPackets`; the flood variant has no limit, which is
modelled by `nPackets = none`. Event times are exact rationals in
seconds. -/

/-- Generator state: `m_running`, `m_packetsSent`, `m_packetSize`,
`m_nPackets` (`none` for the flood variant), the configured bit rate,
and the pending send event `m_sendEvent`, represented by its scheduled
firing time (`none`: no event pending). -/
structure GenApp where
  running : Bool
  packetsSent : Nat
  packetSize : Nat
  nPackets : Option Nat
  rateBps : ℚ
  pending : Option ℚ
  deriving Repr, DecidableEq

/-- The pacing interval `m_packetSize * 8 / rate` seconds computed in
`VoipApplication::ScheduleTx` and `DDoSAttacker::ScheduleNextPacket`. -/
def txInterval (a : GenApp) : ℚ := a.packetSize * 8 / a.rateBps

/-- `SendPacket` firing at time `t`: send, `m_packetsSent++`, then —
for the VoIP variant only if `m_packetsSent < m_nPackets` — call the
scheduler, which registers the next send at `t + txInterval` provided
`m_running` is still set. -/
def sendPacket (a : GenApp) (t : ℚ) : GenApp :=
  let a1 := { a with packetsSent := a.packetsSent + 1, pending := none }
  let wantMore : Bool :=
    match a1.nPackets with
    | some n => a1.packetsSent < n
    | none => true
  if wantMore ∧ a1.running then
    { a1 with pending := some (t + txInterval a1) }
  else a1

/-- `StopApplication`: clear `m_running` and cancel the pending send
event (`Simulator::Cancel`), so it never fires. -/
def stopApplication (a : GenApp) : GenApp :=
  { a with running := false, pending := none }

/-- `StartApplication` at time `t`: set `m_running`, zero the counter,
and send the first packet immediately and unconditionally. -/
def startApplication (a : GenApp) (t : ℚ) : GenApp :=
  sendPacket { a with running := true, packetsSent := 0 } t

/-- Discrete-event view of one generator plus its scheduled stop: the
application, the pending `Stop` event time, and the log of send times.
Per spec §5 events fire in timestamp order with FIFO tie-break; an
application's stop event is registered at initialisation, before any
send is scheduled, so on an equal timestamp the stop fires first. -/
structure GenSim where
  app : GenApp
  stopAt : Option ℚ
  sent : List ℚ
  deriving Repr, DecidableEq

/-- Execute the earliest pending event (stop wins ties). -/
def genStep (s : GenSim) : GenSim :=
  match s.app.pending, s.stopAt with
  | none, none => s
  | none, some _ => { s with app := stopApplication s.app, stopAt := none }
  | some t, none =>
      { s with app := sendPacket s.app t, sent := t :: s.sent }
  | some t, some ts =>
      if t < ts then
        { s with app := sendPacket s.app t, sent := t :: s.sent }
      else
        { s with app := stopApplication s.app, stopAt := none }

/-- Run the event loop for `fuel` steps. -/
def genRun : Nat → GenSim → GenSim
  | 0, s => s
  | n + 1, s => genRun n (genStep s)

/-- Install-and-start: the application is started at `t0` (its first,
unconditional send is logged) with an optional scheduled stop. -/
def genStart (a : GenApp) (t0 : ℚ) (stopAt : Option ℚ) : GenSim :=
  ⟨startApplication a t0, stopAt, [t0]⟩

/-- Number of sends a running generator performs in `k` event-loop
steps: one per step for the flood variant (no limit), and at most the
`n - c` packets remaining under the CBR variant's count limit. -/
def sendsIn (k c : Nat) : Option Nat → Nat
  | none => k
  | some n => min k (n - c)

/-! ## Per-flow aggregation: throughput duration guards

The three post-run statistics loops that report throughput. Divisors
and durations are modelled over exact rationals. -/

/-- Duration used by the multi-site WAN statistics loop
(`exercise1_multi_site_wan.cc`): `duration = timeLastRxPacket -
timeFirstTxPacket` with the guard `if (duration <= 0.0) duration =
1e-9`. -/
def multiSiteDuration (lastRx firstTx : ℚ) : ℚ :=
  let d := lastRx - firstTx
  if d ≤ 0 then 1 / 1000000000 else d

/-- Throughput in Mbps as reported by the multi-site WAN loop. -/
def multiSiteThroughput (rxBytes lastRx firstTx : ℚ) : ℚ :=
  rxBytes * 8 / multiSiteDuration lastRx firstTx / 1000000

/-- Divisor used by the QoS mixed-traffic statistics loop
(`src/unnamed/part_000`): the raw `timeLastRxPacket -
timeFirstTxPacket`, with no guard (the branch runs only when
`rxPackets > 0`). -/
def qosFlowDuration (lastRx firstTx : ℚ) : ℚ := lastRx - firstTx

/-- Throughput in Mbps as reported by the QoS mixed-traffic loop. -/
def qosFlowThroughput (rxBytes lastRx firstTx : ℚ) : ℚ :=
  rxBytes * 8 / qosFlowDuration lastRx firstTx / 1000000

/-- Divisor used by the multi-hop WAN business-continuity loop
(`exercise4_multi_hop_wan.cc`): likewise the raw difference, with no
guard. -/
def multiHopDuration (lastRx firstTx : ℚ) : ℚ := lastRx - firstTx

/-- Throughput in Kbps as reported by the multi-hop WAN loop. -/
def multiHopThroughput (rxBytes lastRx firstTx : ℚ) : ℚ :=
  rxBytes * 8 / multiHopDuration lastRx firstTx / 1000

/-! ## Theorems -/

/-- C6: the admission controller's window-reset boundary is inclusive:
whenever `now - windowStart >= windowSize` (in particular for a packet
arriving exactly at `windowStart + windowSize`), the window is reset
before the admission test: the admission decision is taken against
`bytesInWindow = 0`, and the resulting state has `windowStart = now`
with `bytesInWindow` counted from zero. -/
theorem allowPacket_reset_boundary_inclusive (cfg : RateLimiterConfig)
    (st : RateLimiterState) (size : Nat) (now : ℤ)
    (h : now - st.windowStart ≥ windowSizeNs cfg) :
    allowPacket cfg st size now
      = if size ≤ maxBytes cfg then
          (true, ⟨size, now, st.droppedPackets⟩)
        else
          (false, ⟨0, now, st.droppedPackets + 1⟩) := by
  simp only [allowPacket]
  rw [if_pos h]
  simp only [Nat.zero_add]

/-- Witness for C6 at the exact boundary `now = windowStart + windowSize`:
config 16 bit/s over a 1 s window (`maxBytes = 2`), state with 2 bytes
already counted and `windowStart = 0`, a 1-byte packet at
`now = 10^9 ns`: the window resets and the packet is admitted. -/
theorem allowPacket_reset_boundary_inclusive_witness :
    allowPacket ⟨16, 1⟩ ⟨2, 0, 0⟩ 1 1000000000
      = if 1 ≤ maxBytes ⟨16, 1⟩ then ((true, ⟨1, 1000000000, 0⟩) : Bool × RateLimiterState)
        else (false, ⟨0, 1000000000, 1⟩) :=
  allowPacket_reset_boundary_inclusive ⟨16, 1⟩ ⟨2, 0, 0⟩ 1 1000000000 (by decide)

/-- C9 (frame effect): a call strictly inside the current window that is
denied leaves `bytesInWindow` and `windowStart` unchanged and increases
only the dropped-packet counter, by exactly one. -/
theorem allowPacket_deny_in_window_frame (cfg : RateLimiterConfig)
    (st : RateLimiterState) (size : Nat) (now : ℤ)
    (hin : now - st.windowStart < windowSizeNs cfg)
    (hdeny : (allowPacket cfg st size now).1 = false) :
    (allowPacket cfg st size now).2
      = { st with droppedPackets := st.droppedPackets + 1 } := by
  have hnr : ¬ (now - st.windowStart ≥ windowSizeNs cfg) := not_le.mpr hin
  simp only [allowPacket, if_neg hnr] at hdeny ⊢
  split_ifs at hdeny ⊢
  rfl

/-- Witness for C9: config 16 bit/s over 1 s (`maxBytes = 2`), 2 bytes
already in the window, a 1-byte packet at `now = 7` ns is denied and
only the dropped counter moves. -/
theorem allowPacket_deny_in_window_frame_witness :
    (allowPacket ⟨16, 1⟩ ⟨2, 0, 5⟩ 1 7).2 = ⟨2, 0, 6⟩ :=
  allowPacket_deny_in_window_frame ⟨16, 1⟩ ⟨2, 0, 5⟩ 1 7 (by decide) (by decide)

/-- C5 (amended): a rate limit of zero denies every packet of positive
size, regardless of arrival time and window state. (A zero-size packet
is still admitted, see the counterexample.) -/
theorem allowPacket_zero_limit_denies (cfg : RateLimiterConfig)
    (st : RateLimiterState) (size : Nat) (now : ℤ)
    (hrate : cfg.rateLimitBps = 0) (hsize : 0 < size) :
    (allowPacket cfg st size now).1 = false := by
  have hmb : maxBytes cfg = 0 := by simp [maxBytes, hrate]
  simp only [allowPacket, hmb]
  split_ifs with h1 h2
  · omega
  · rfl
  · omega
  · rfl

/-- C5 counterexample: with the rate limit set to zero, a zero-size
packet (ns-3 allows `Create<Packet>(0)`) is nevertheless admitted:
`bytesInWindow + 0 <= 0` holds, so `AllowPacket` returns allow, not
deny. -/
theorem allowPacket_zero_limit_counterexample :
    (allowPacket ⟨0, 1⟩ ⟨0, 0, 0⟩ 0 0).1 = true := by decide

/-- Witness for C5 (amended): zero rate limit, 1-byte packet, denied. -/
theorem allowPacket_zero_limit_denies_witness :
    (allowPacket ⟨0, 1⟩ ⟨0, 0, 0⟩ 1 0).1 = false :=
  allowPacket_zero_limit_denies ⟨0, 1⟩ ⟨0, 0, 0⟩ 1 0 (by decide) (by decide)

/-- Auxiliary invariant for the constant-stream theorem: starting from a
window holding `k` packets' worth of bytes (`k * S`), the `i`-th packet
of a size-`S` stream kept inside the window is admitted iff
`(k + i + 1) * S ≤ maxBytes`. -/
theorem processPackets_stream_aux (cfg : RateLimiterConfig) (S : Nat) :
    ∀ (ts : List ℤ) (ws : ℤ) (d k : Nat),
      (∀ t ∈ ts, ws ≤ t ∧ t - ws < windowSizeNs cfg) →
      processPackets cfg ⟨k * S, ws, d⟩ (ts.map fun t => (S, t))
        = (List.range ts.length).map
            fun i => decide ((k + i + 1) * S ≤ maxBytes cfg) := by
  intro ts
  induction ts with
  | nil => intro ws d k _; rfl
  | cons t rest ih =>
    intro ws d k hin
    obtain ⟨h1, h2⟩ := hin t (List.mem_cons_self t rest)
    have hnr : ¬ (t - ws ≥ windowSizeNs cfg) := not_le.mpr h2
    have hin' : ∀ t' ∈ rest, ws ≤ t' ∧ t' - ws < windowSizeNs cfg :=
      fun t' ht' => hin t' (List.mem_cons_of_mem t ht')
    have hrange : (List.range (rest.length + 1)).map
        (fun i => decide ((k + i + 1) * S ≤ maxBytes cfg))
        = decide ((k + 1) * S ≤ maxBytes cfg)
          :: (List.range rest.length).map
              (fun i => decide ((k + (i + 1) + 1) * S ≤ maxBytes cfg)) := by
      rw [List.range_succ_eq_map, List.map_cons, List.map_map]
      simp [Function.comp_def]
    by_cases hadm : k * S + S ≤ maxBytes cfg
    · have hadm' : (k + 1) * S ≤ maxBytes cfg := by
        have : (k + 1) * S = k * S + S := by ring
        rw [this]; exact hadm
      simp only [List.map_cons, processPackets, allowPacket, if_neg hnr,
        if_pos hadm, List.length_cons]
      have hb : k * S + S = (k + 1) * S := by ring
      rw [hrange, hb, ih ws d (k + 1) hin']
      refine List.cons_eq_cons.mpr ⟨?_, ?_⟩
      · simp [hadm']
      · apply List.map_congr_left
        intro i _
        have he : k + 1 + i + 1 = k + (i + 1) + 1 := by omega
        rw [he]
    · have hadm' : ¬ ((k + 1) * S ≤ maxBytes cfg) := by
        have : (k + 1) * S = k * S + S := by ring
        rw [this]; exact hadm
      simp only [List.map_cons, processPackets, allowPacket, if_neg hnr,
        if_neg hadm, List.length_cons]
      rw [hrange, ih ws (d + 1) k hin']
      refine List.cons_eq_cons.mpr ⟨?_, ?_⟩
      · simp [hadm']
      · apply List.map_congr_left
        intro i _
        have hf1 : ¬ ((k + i + 1) * S ≤ maxBytes cfg) := by
          intro hcon
          exact hadm' (le_trans (Nat.mul_le_mul_right S (by omega)) hcon)
        have hf2 : ¬ ((k + (i + 1) + 1) * S ≤ maxBytes cfg) := by
          intro hcon
          exact hadm' (le_trans (Nat.mul_le_mul_right S (by omega)) hcon)
        simp [hf1, hf2]

/-- C2: a constant stream of size-`S` packets offered within one window
of a limiter with rate `rateLimitBps` over window `W` seconds: writing
`L = rateLimitBps / 8` for the byte rate, exactly `⌊L*W / S⌋` packets
are allowed and every subsequent packet in that window is denied: the
`i`-th decision (0-based) is allow iff `i < maxBytes / S`. -/
theorem processPackets_constant_stream (cfg : RateLimiterConfig)
    (S : Nat) (ts : List ℤ) (ws : ℤ) (d : Nat) (hS : 0 < S)
    (hin : ∀ t ∈ ts, ws ≤ t ∧ t - ws < windowSizeNs cfg) :
    processPackets cfg ⟨0, ws, d⟩ (ts.map fun t => (S, t))
      = (List.range ts.length).map
          fun i => decide (i < maxBytes cfg / S) := by
  have h0 : (0 : Nat) = 0 * S := by ring
  calc processPackets cfg ⟨0, ws, d⟩ (ts.map fun t => (S, t))
      = processPackets cfg ⟨0 * S, ws, d⟩ (ts.map fun t => (S, t)) := by
        rw [← h0]
    _ = (List.range ts.length).map
          fun i => decide ((0 + i + 1) * S ≤ maxBytes cfg) :=
        processPackets_stream_aux cfg S ts ws d 0 hin
    _ = (List.range ts.length).map
          fun i => decide (i < maxBytes cfg / S) := by
        apply List.map_congr_left
        intro i _
        have : (i < maxBytes cfg / S) ↔ ((0 + i + 1) * S ≤ maxBytes cfg) := by
          rw [Nat.lt_iff_add_one_le, Nat.le_div_iff_mul_le hS]
          constructor <;> intro h <;> [skip; skip] <;>
            simpa [Nat.zero_add] using h
        simp [this]

/-- Witness for C2: 16 bit/s over a 1 s window gives `maxBytes = 2`;
three 1-byte packets inside the window at 0, 1 and 2 ns yield the
decisions allow, allow, deny. -/
theorem processPackets_constant_stream_witness :
    processPackets ⟨16, 1⟩ ⟨0, 0, 0⟩ ([0, 1, 2].map fun t => (1, t))
      = (List.range ([0, 1, 2] : List ℤ).length).map
          fun i => decide (i < maxBytes ⟨16, 1⟩ / 1) :=
  processPackets_constant_stream ⟨16, 1⟩ 1 [0, 1, 2] 0 0 (by decide)
    (by decide)

/-- Closed form for the PBR controller: after k toggles the table holds
exactly one route for the watched destination — the primary one when
k = 0 or k is odd, the secondary one when k ≥ 2 is even — and `m_state`
is true iff k is even. -/
theorem afterToggles_closed (k : Nat) :
    afterToggles k
      = ⟨[if k = 0 ∨ k % 2 = 1 then primaryRoute else secondaryRoute],
         decide (k % 2 = 0)⟩ := by
  induction k with
  | zero => decide
  | succ n ih =>
    show toggle (afterToggles n) = _
    rw [ih]
    by_cases hn : n % 2 = 0
    · have h1 : (n + 1) % 2 = 1 := by omega
      have h0 : ¬ ((n + 1) % 2 = 0) := by omega
      by_cases hz : n = 0 <;>
        simp [toggle, primaryRoute, secondaryRoute, pbrDestNet, pbrMask,
          addr, hz, hn, h1, h0]
    · have hn1 : n % 2 = 1 := by omega
      have h1 : (n + 1) % 2 = 0 := by omega
      have hnz : ¬ (n = 0) := by omega
      have h10 : ¬ ((n + 1) = 0 ∨ (n + 1) % 2 = 1) := by omega
      simp [toggle, primaryRoute, secondaryRoute, pbrDestNet, pbrMask,
        addr, hn, hn1, hnz, h1, h10]

/-- C3 counterexample: after the first toggle (k = 1, odd) the active
next hop is still the primary `10.100.1.2`, not the secondary
`10.100.2.2` the claim requires for odd k: `m_state` starts true, so
the first firing re-installs the primary route before flipping. -/
theorem pbr_first_toggle_counterexample :
    activeRoutes (afterToggles 1) = [primaryRoute]
      ∧ primaryRoute.nextHop ≠ secondaryRoute.nextHop := by decide

/-- C3 (amended): after the k-th toggle the watched destination has
exactly one active route; its next hop is the primary (A) when k = 0 or
k is odd, and the secondary (B) when k ≥ 2 is even. -/
theorem pbr_active_next_hop (k : Nat) :
    activeRoutes (afterToggles k)
      = [if k = 0 ∨ k % 2 = 1 then primaryRoute else secondaryRoute] := by
  rw [afterToggles_closed]
  split_ifs <;>
    simp [activeRoutes, primaryRoute, secondaryRoute, pbrDestNet, pbrMask,
      addr]

/-- Helper: any result of the lowest-metric fold satisfies a property
that the accumulator and every list element satisfy. -/
theorem foldl_min_metric_prop (Q : RouteEntry → Prop) :
    ∀ (l : List RouteEntry) (acc : Option RouteEntry),
      (∀ b, acc = some b → Q b) → (∀ x ∈ l, Q x) →
      ∀ r, l.foldl (fun acc e =>
          match acc with
          | none => some e
          | some b => if e.metric < b.metric then some e else some b) acc
        = some r → Q r := by
  intro l
  induction l with
  | nil => intro acc hacc _ r hr; exact hacc r hr
  | cons e rest ih =>
    intro acc hacc hl r hr
    simp only [List.foldl_cons] at hr
    refine ih _ ?_ (fun x hx => hl x (List.mem_cons_of_mem e hx)) r hr
    intro b hb
    cases acc with
    | none =>
      cases hb
      exact hl e (List.mem_cons_self e rest)
    | some b0 =>
      have hb' : (if e.metric < b0.metric then some e else some b0)
          = some b := hb
      split_ifs at hb' with hm
      · cases hb'
        exact hl e (List.mem_cons_self e rest)
      · cases hb'
        exact hacc _ rfl

/-- C1: `Lookup` never returns an entry whose associated link state is
Down; in particular, in the exercise-1 failover scenario — the direct
link fails at 4.0 s — a lookup for the DC network at t = 4.1 s returns
the metric-2 backup entry via the still-Up link, not the metric-1
direct entry. -/
theorem lookup_never_down :
    (∀ (ls : Nat → LinkState) (tbl : List RouteEntry) (d : Nat)
        (e : RouteEntry),
        lookup ls tbl d = some e → ls e.link = LinkState.up)
    ∧ lookup (linkStateAt (41 / 10)) hqScenarioTable dcNet
        = some backupRouteEntry := by
  constructor
  · intro ls tbl d e h
    have hmem : ∀ x ∈ tbl.filter
        (fun e => e.dest == d && ls e.link == LinkState.up),
        ls x.link = LinkState.up := by
      intro x hx
      have hp := List.of_mem_filter hx
      simp only [Bool.and_eq_true, beq_iff_eq] at hp
      exact hp.2
    exact foldl_min_metric_prop _ _ none (fun b hb => by cases hb) hmem e h
  · have h2 : linkStateAt (41 / 10) 2 = LinkState.down := by
      norm_num [linkStateAt]
    have h0 : linkStateAt (41 / 10) 0 = LinkState.up := by
      norm_num [linkStateAt]
    simp [lookup, hqScenarioTable, directRouteEntry, backupRouteEntry,
      dcNet, addr, h2, h0]

/-- Witness for C1: the invariant applied at the failover scenario
itself — the entry returned at t = 4.1 s rides link 0, which is Up. -/
theorem lookup_never_down_witness :
    linkStateAt (41 / 10) backupRouteEntry.link = LinkState.up :=
  lookup_never_down.1 (linkStateAt (41 / 10)) hqScenarioTable dcNet
    backupRouteEntry lookup_never_down.2

/-- Helper: with no pending send and no pending stop, the event loop is
quiescent. -/
theorem genRun_quiescent (fuel : Nat) :
    ∀ s : GenSim, s.app.pending = none → s.stopAt = none →
      genRun fuel s = s := by
  induction fuel with
  | zero => intro s _ _; rfl
  | succ n ih =>
    intro s hp hs
    have hstep : genStep s = s := by
      simp [genStep, hp, hs]
    show genRun n (genStep s) = s
    rw [hstep]
    exact ih s hp hs

/-- C4: once the scheduled `Stop` has taken effect no further send is
observed, even if a send was pending at that very instant — the stop
handler cancels the pending event, and on an equal timestamp the stop
(scheduled at initialisation) fires before the send. Every send logged
by a run either predates the run or happens strictly before the stop
time. -/
theorem no_send_after_stop (fuel : Nat) :
    ∀ (s : GenSim) (ts : ℚ), s.stopAt = some ts →
      ∀ t ∈ (genRun fuel s).sent, t ∈ s.sent ∨ t < ts := by
  induction fuel with
  | zero => intro s ts _ t ht; exact Or.inl ht
  | succ n ih =>
    intro s ts hs t ht
    show t ∈ s.sent ∨ t < ts
    replace ht : t ∈ (genRun n (genStep s)).sent := ht
    cases hp : s.app.pending with
    | none =>
      have hstep : genStep s
          = { s with app := stopApplication s.app, stopAt := none } := by
        simp [genStep, hp, hs]
      rw [hstep, genRun_quiescent n _ rfl rfl] at ht
      exact Or.inl ht
    | some t0 =>
      by_cases hlt : t0 < ts
      · have hstep : genStep s
            = { s with app := sendPacket s.app t0, sent := t0 :: s.sent } := by
          simp [genStep, hp, hs, hlt]
        rw [hstep] at ht
        rcases ih { s with app := sendPacket s.app t0, sent := t0 :: s.sent }
            ts hs t ht with h1 | h1
        · rcases List.mem_cons.mp h1 with h2 | h2
          · exact Or.inr (h2 ▸ hlt)
          · exact Or.inl h2
        · exact Or.inr h1
      · have hstep : genStep s
            = { s with app := stopApplication s.app, stopAt := none } := by
          simp [genStep, hp, hs, hlt]
        rw [hstep, genRun_quiescent n _ rfl rfl] at ht
        exact Or.inl ht

/-- Witness for C4: a flood generator with a send pending at t = 5 s
and a stop scheduled at t = 4 s; after one event the pending send is
cancelled and the only logged send (t = 3 s, from before) predates the
stop. -/
theorem no_send_after_stop_witness :
    (3 : ℚ) ∈ ([3] : List ℚ) ∨ (3 : ℚ) < 4 :=
  no_send_after_stop 1
    ⟨⟨true, 0, 1024, none, 2000000, some 5⟩, some 4, [3]⟩ 4 rfl 3 (by decide)

/-- Helper: prepending one send to a log paced at interval `i` from
`t0 + i` yields the log paced at interval `i` from `t0`, one entry
longer. -/
theorem paced_log_cons (m : Nat) (t0 i : ℚ) (s : List ℚ) :
    ((List.range m).map fun j : Nat => t0 + i + (j : ℚ) * i).reverse
        ++ t0 :: s
      = ((List.range (m + 1)).map fun j : Nat => t0 + (j : ℚ) * i).reverse
        ++ s := by
  rw [List.range_succ_eq_map, List.map_cons, List.map_map,
    List.reverse_cons, List.append_assoc, List.singleton_append]
  congr 1
  · apply congrArg List.reverse
    apply List.map_congr_left
    intro j _
    simp only [Function.comp_apply]
    push_cast
    ring
  · congr 1
    simp

/-- Helper: closed form of a running generator's send log for either
variant — `lim = none` (flood) or `lim = some n` with `c < n` packets
already sent (CBR): the sends it performs sit at
`t0, t0 + i, t0 + 2·i, …` with `i = packetSize * 8 / rate`. -/
theorem gen_paced_aux (lim : Option Nat) (ps : Nat) (r : ℚ) :
    ∀ (k c : Nat) (t0 : ℚ) (s : List ℚ),
      (∀ n, lim = some n → c < n) →
      (genRun k ⟨⟨true, c, ps, lim, r, some t0⟩, none, s⟩).sent
        = ((List.range (sendsIn k c lim)).map
            fun j : Nat => t0 + (j : ℚ) * ((ps : ℚ) * 8 / r)).reverse ++ s := by
  intro k
  induction k with
  | zero =>
    intro c t0 s _
    cases lim <;> simp [genRun, sendsIn]
  | succ m ih =>
    intro c t0 s hc
    cases lim with
    | none =>
      have hstep : genStep ⟨⟨true, c, ps, none, r, some t0⟩, none, s⟩
          = ⟨⟨true, c + 1, ps, none, r, some (t0 + ps * 8 / r)⟩,
             none, t0 :: s⟩ := by
        simp [genStep, sendPacket, txInterval]
      show (genRun m (genStep _)).sent = _
      rw [hstep,
        ih (c + 1) (t0 + ↑ps * 8 / r) (t0 :: s) (fun n h => nomatch h)]
      have hcount : sendsIn (m + 1) c none = sendsIn m (c + 1) none + 1 := by
        simp [sendsIn]
      rw [hcount]
      exact paced_log_cons (sendsIn m (c + 1) none) t0 _ s
    | some n =>
      have hcn : c < n := hc n rfl
      by_cases hmore : c + 1 < n
      · have hstep : genStep ⟨⟨true, c, ps, some n, r, some t0⟩, none, s⟩
            = ⟨⟨true, c + 1, ps, some n, r, some (t0 + ps * 8 / r)⟩,
               none, t0 :: s⟩ := by
          simp [genStep, sendPacket, txInterval, hmore]
        show (genRun m (genStep _)).sent = _
        rw [hstep, ih (c + 1) (t0 + ↑ps * 8 / r) (t0 :: s)
          (fun n' h => lt_of_lt_of_eq hmore (Option.some.inj h))]
        have hcount : sendsIn (m + 1) c (some n)
            = sendsIn m (c + 1) (some n) + 1 := by
          simp only [sendsIn]
          omega
        rw [hcount]
        exact paced_log_cons (sendsIn m (c + 1) (some n)) t0 _ s
      · have hstep : genStep ⟨⟨true, c, ps, some n, r, some t0⟩, none, s⟩
            = ⟨⟨true, c + 1, ps, some n, r, none⟩, none, t0 :: s⟩ := by
          simp [genStep, sendPacket, hmore]
        show (genRun m (genStep _)).sent = _
        rw [hstep, genRun_quiescent m _ rfl rfl]
        have hcount : sendsIn (m + 1) c (some n) = 1 := by
          simp only [sendsIn]
          omega
        rw [hcount]
        simp [List.range_succ]

/-- C8: every running generator — flood (`lim = none`) or CBR
(`lim = some n`, `c < n` sent so far) — with no stop scheduled sends at
`t0, t0 + i, t0 + 2·i, …` with `i = packetSize * 8 / rate`: every two
consecutive sends are separated by exactly that interval, with zero
drift over the run; and for 1024-byte packets at 2 Mbps the interval
is exactly 0.004096 s. -/
theorem gen_constant_interval (k c ps : Nat) (lim : Option Nat)
    (r t0 : ℚ) (s : List ℚ) (hc : ∀ n, lim = some n → c < n) :
    (genRun k ⟨⟨true, c, ps, lim, r, some t0⟩, none, s⟩).sent
      = ((List.range (sendsIn k c lim)).map
          fun j : Nat => t0 + (j : ℚ) * ((ps : ℚ) * 8 / r)).reverse ++ s
    ∧ txInterval ⟨true, 0, 1024, none, 2000000, none⟩ = 0.004096 :=
  ⟨gen_paced_aux lim ps r k c t0 s hc, by norm_num [txInterval]⟩

/-- Witness for C8, exercising the CBR variant: a VoIP-style generator
limited to 2 packets, run for 3 steps from t = 2 s, logs its sends at
the closed-form paced times. -/
theorem gen_constant_interval_witness :
    (genRun 3 ⟨⟨true, 0, 160, some 2, 64000, some 2⟩, none, []⟩).sent
      = ((List.range (sendsIn 3 0 (some 2))).map
          fun j : Nat => 2 + (j : ℚ) * ((160 : ℚ) * 8 / 64000)).reverse ++ []
    ∧ txInterval ⟨true, 0, 1024, none, 2000000, none⟩ = 0.004096 :=
  gen_constant_interval 3 0 160 (some 2) 64000 2 []
    (fun n h => lt_of_lt_of_eq (by decide) (Option.some.inj h))

/-- Helper: a running CBR generator with `c < n` packets already sent,
a pending send, and no scheduled stop sends exactly `n - c` more
packets and then goes idle. -/
theorem genRun_cbr_count (fuel : Nat) :
    ∀ (c n ps : Nat) (r t : ℚ) (s : List ℚ),
      c < n → n - c ≤ fuel →
      (genRun fuel ⟨⟨true, c, ps, some n, r, some t⟩, none, s⟩).sent.length
        = s.length + (n - c) := by
  induction fuel with
  | zero =>
    intro c n ps r t s hc hf
    exact absurd hc (by omega)
  | succ m ih =>
    intro c n ps r t s hc hf
    by_cases hmore : c + 1 < n
    · have hstep : genStep ⟨⟨true, c, ps, some n, r, some t⟩, none, s⟩
          = ⟨⟨true, c + 1, ps, some n, r, some (t + ps * 8 / r)⟩,
             none, t :: s⟩ := by
        simp [genStep, sendPacket, txInterval, hmore]
      show (genRun m (genStep _)).sent.length = _
      rw [hstep, ih (c + 1) n ps r (t + ↑ps * 8 / r) (t :: s) hmore (by omega)]
      simp
      omega
    · have hstep : genStep ⟨⟨true, c, ps, some n, r, some t⟩, none, s⟩
          = ⟨⟨true, c + 1, ps, some n, r, none⟩, none, t :: s⟩ := by
        simp [genStep, sendPacket, hmore]
      show (genRun m (genStep _)).sent.length = _
      rw [hstep, genRun_quiescent m _ rfl rfl]
      simp
      omega

/-- C10: the CBR (VoIP) generator's first send on `Start` is
unconditional and the count limit is only checked after a send: started
with limit `n` and never stopped, it sends exactly `max 1 n` packets —
one packet when `n = 0`, and exactly `n` packets when `n ≥ 1`. -/
theorem cbr_send_count (ps n : Nat) (r t0 : ℚ) (fuel : Nat)
    (hfuel : n ≤ fuel) :
    (genRun fuel
        (genStart ⟨false, 0, ps, some n, r, none⟩ t0 none)).sent.length
      = max 1 n := by
  by_cases hn : 1 < n
  · have hstart : genStart ⟨false, 0, ps, some n, r, none⟩ t0 none
        = ⟨⟨true, 1, ps, some n, r, some (t0 + ps * 8 / r)⟩, none, [t0]⟩ := by
      simp [genStart, startApplication, sendPacket, txInterval, hn]
    rw [hstart,
      genRun_cbr_count fuel 1 n ps r (t0 + ↑ps * 8 / r) [t0] hn (by omega)]
    simp
    omega
  · have hstart : genStart ⟨false, 0, ps, some n, r, none⟩ t0 none
        = ⟨⟨true, 1, ps, some n, r, none⟩, none, [t0]⟩ := by
      simp [genStart, startApplication, sendPacket, hn]
    rw [hstart, genRun_quiescent fuel _ rfl rfl]
    simp
    omega

/-- Witness for C10: limit 3, enough fuel: exactly three sends. -/
theorem cbr_send_count_witness :
    (genRun 5
        (genStart ⟨false, 0, 160, some 3, 64000, none⟩ 2 none)).sent.length
      = max 1 3 :=
  cbr_send_count 160 3 64000 2 5 (by decide)

/-- C7 counterexample: the claim fails on the code — with
`lastRx = firstTx` (zero duration) the QoS mixed-traffic loop and the
multi-hop business-continuity loop divide by the raw zero duration,
substituting no epsilon; only the multi-site WAN loop substitutes
`1e-9`. -/
theorem throughput_guard_counterexample :
    qosFlowDuration 2 2 = 0 ∧ multiHopDuration 2 2 = 0
      ∧ multiSiteDuration 2 2 = 1 / 1000000000 := by
  norm_num [qosFlowDuration, multiHopDuration, multiSiteDuration]

/-- C7 (amended): only the multi-site WAN statistics loop guards the
throughput computation — its divisor is always positive, substituting
the epsilon `1e-9` when the duration is zero or negative — while the
QoS mixed-traffic and multi-hop loops use the raw duration, which is
zero or negative whenever `lastRx ≤ firstTx`. -/
theorem throughput_guard_only_multisite (lastRx firstTx : ℚ) :
    0 < multiSiteDuration lastRx firstTx
    ∧ (lastRx ≤ firstTx →
        qosFlowDuration lastRx firstTx ≤ 0
          ∧ multiHopDuration lastRx firstTx ≤ 0) := by
  constructor
  · simp only [multiSiteDuration]
    split_ifs with h
    · norm_num
    · push_neg at h
      exact h
  · intro h
    exact ⟨sub_nonpos.mpr h, sub_nonpos.mpr h⟩

/-- Witness for C7 (amended) at `lastRx = firstTx = 1`: the guarded
divisor is positive while the raw divisors are non-positive. -/
theorem throughput_guard_only_multisite_witness :
    0 < multiSiteDuration 1 1
    ∧ (qosFlowDuration 1 1 ≤ 0 ∧ multiHopDuration 1 1 ≤ 0) :=
  ⟨(throughput_guard_only_multisite 1 1).1,
   (throughput_guard_only_multisite 1 1).2 (le_refl 1)⟩

end WanSim
